import Mathlib

/-!
Verification of `hlerr` (src/hlerr.c): a tool that runs a child command,
multiplexes its stdout/stderr byte-by-byte, highlights stderr-origin bytes
with ANSI color markers, and reports the child's termination.

The C program is shallowly embedded below. Global mutable state
(`in_stderr`, `stdout_line`, `stdout_line_pos`) becomes an explicit record
`RState`; each rendering function returns the new state together with the
ordered list of `write` calls it performs. Bytes are `Nat` (values 0..255);
the newline byte is 10. Syscall outcomes that depend on the environment
(poll results, read results, write failures, wait status) are explicit
inputs to the embedded control flow.
-/

namespace Hlerr

/-- Capacity of the line buffer: `char stdout_line[1024]` (src/hlerr.c line 25),
used as `sizeof(stdout_line)` in `stdout_putc`. -/
def CAP : Nat := 1024

/-- File descriptor 1, `STDOUT_FILENO`. -/
def STDOUT_FILENO : Nat := 1

/-- File descriptor 2, `STDERR_FILENO`. -/
def STDERR_FILENO : Nat := 2

/-- `EXIT_FAILURE` from stdlib.h. -/
def EXIT_FAILURE : Nat := 1

/-- The visible characters of `"\x1b[31m"` (ESC `[` `3` `1` `m`). -/
def STDERR_BEGIN_MARKER_text : List Nat := [27, 91, 51, 49, 109]

/-- The C object `static const char STDERR_BEGIN_MARKER[] = "\x1b[31m"`
(src/hlerr.c line 12): an array of 6 chars, the escape sequence plus the
terminating NUL. `set_stderr` writes `sizeof(STDERR_BEGIN_MARKER)` = 6 bytes,
so the NUL byte is part of what is written. -/
def STDERR_BEGIN_MARKER : List Nat := STDERR_BEGIN_MARKER_text ++ [0]

/-- The visible characters of `"\x1b[m"` (ESC `[` `m`). -/
def STDERR_END_MARKER_text : List Nat := [27, 91, 109]

/-- The C object `static const char STDERR_END_MARKER[] = "\x1b[m"`
(src/hlerr.c line 13): 4 chars including the terminating NUL;
`set_stderr` writes all `sizeof(STDERR_END_MARKER)` = 4 of them. -/
def STDERR_END_MARKER : List Nat := STDERR_END_MARKER_text ++ [0]

/-- Renderer state: the globals of src/hlerr.c lines 24-26.
`line` models the buffer contents `stdout_line[0 .. stdout_line_pos)`,
so `line.length` is `stdout_line_pos`. -/
structure RState where
  in_stderr : Bool
  line : List Nat
  deriving DecidableEq, Repr

/-- Initial renderer state: `in_stderr = false`, empty buffer. -/
def initState : RState := ⟨false, []⟩

/-- One `write` call performed by the renderer, in order of emission. -/
inductive Out where
  /-- `write_all_nointr(STDERR_FILENO, STDERR_BEGIN_MARKER, sizeof ...)` -/
  | beginMarker : Out
  /-- `write_all_nointr(STDERR_FILENO, STDERR_END_MARKER, sizeof ...)` -/
  | endMarker : Out
  /-- `write_all_nointr(STDERR_FILENO, &c, 1)` from `stderr_putc` -/
  | errByte (c : Nat) : Out
  /-- `write_all_nointr(STDOUT_FILENO, stdout_line, stdout_line_pos)` from `flush_stdout_line` -/
  | outBlock (bs : List Nat) : Out
  deriving DecidableEq, Repr

/-- The file descriptor each emission is written to: markers and stderr bytes
go to `STDERR_FILENO`, flushed line-buffer blocks to `STDOUT_FILENO`
(src/hlerr.c lines 248, 255, 267, 270). -/
def Out.fd : Out → Nat
  | .beginMarker => STDERR_FILENO
  | .endMarker => STDERR_FILENO
  | .errByte _ => STDERR_FILENO
  | .outBlock _ => STDOUT_FILENO

/-- The bytes each emission writes. The marker writes include the
terminating NUL because the C code passes `sizeof` of the array. -/
def Out.bytes : Out → List Nat
  | .beginMarker => STDERR_BEGIN_MARKER
  | .endMarker => STDERR_END_MARKER
  | .errByte c => [c]
  | .outBlock bs => bs

/-- `set_stderr` (src/hlerr.c lines 261-273): if the requested mode equals
`in_stderr`, do nothing; otherwise record the new mode and write the begin
marker (entering stderr mode) or the end marker (leaving it). Writes are
modeled as succeeding. -/
def set_stderr (st : RState) (is_stderr : Bool) : RState × List Out :=
  if is_stderr = st.in_stderr then (st, [])
  else ({ st with in_stderr := is_stderr },
        [if is_stderr then Out.beginMarker else Out.endMarker])

/-- `flush_stdout_line` (src/hlerr.c lines 252-259): `set_stderr(false)`,
then write the buffered bytes as one block to `STDOUT_FILENO`, then reset
`stdout_line_pos` to 0. -/
def flush_stdout_line (st : RState) : RState × List Out :=
  let p := set_stderr st false
  ({ p.1 with line := [] }, p.2 ++ [Out.outBlock p.1.line])

/-- `stdout_putc` (src/hlerr.c lines 231-243): if the buffer is full, flush;
append the byte; if the byte is a newline (10), flush. Writes are modeled
as succeeding (the failure returns are treated in `stdout_putc_pos`). -/
def stdout_putc (st : RState) (c : Nat) : RState × List Out :=
  let p := if CAP ≤ st.line.length then flush_stdout_line st else (st, [])
  let st2 : RState := { p.1 with line := p.1.line ++ [c] }
  if c = 10 then
    let q := flush_stdout_line st2
    (q.1, p.2 ++ q.2)
  else (st2, p.2)

/-- `stderr_putc` (src/hlerr.c lines 245-250): `set_stderr(true)`, then write
the single byte immediately to `STDERR_FILENO`. -/
def stderr_putc (st : RState) (c : Nat) : RState × List Out :=
  let p := set_stderr st true
  (p.1, p.2 ++ [Out.errByte c])

/-- A byte forwarded by the multiplexer to the renderer, tagged with origin. -/
inductive Ev where
  | out (c : Nat) : Ev
  | err (c : Nat) : Ev
  deriving DecidableEq, Repr

/-- Dispatch one tagged byte to the renderer, as the multiplexer loop does
(src/hlerr.c lines 173 and 184). -/
def step (st : RState) : Ev → RState × List Out
  | .out c => stdout_putc st c
  | .err c => stderr_putc st c

/-- Run the renderer over a sequence of tagged bytes, concatenating
the emissions in order. -/
def runEvents (st : RState) : List Ev → RState × List Out
  | [] => (st, [])
  | e :: es =>
    let p := step st e
    let q := runEvents p.1 es
    (q.1, p.2 ++ q.2)

/-- A completed run's rendered output: all bytes dispatched during the
multiplexer loop, followed by the final `flush_stdout_line()` that the parent
performs at `reap_child` (src/hlerr.c line 193), starting from the initial
state. -/
def run (es : List Ev) : List Out :=
  (runEvents initState es).2 ++ (flush_stdout_line (runEvents initState es).1).2

/-- Count of highlight-begin marker writes in an emission list. -/
def countBegin (os : List Out) : Nat :=
  (os.filter (fun o => o = Out.beginMarker)).length

/-- Count of highlight-end marker writes in an emission list. -/
def countEnd (os : List Out) : Nat :=
  (os.filter (fun o => o = Out.endMarker)).length

/-- Count of line-buffer flush writes (one `outBlock` per `flush_stdout_line`
that runs to its write). -/
def countFlush (os : List Out) : Nat :=
  (os.filter (fun o => match o with | Out.outBlock _ => true | _ => false)).length

/-- Scan an emission list maintaining the highlighting mode: begin markers may
occur only in plain mode and switch to highlighted, end markers only in
highlighted mode and switch to plain, stderr bytes only in highlighted mode,
stdout blocks only in plain mode. Returns the final mode, or `none` if some
emission violates this discipline. -/
def scanMode : Bool → List Out → Option Bool
  | m, [] => some m
  | m, Out.beginMarker :: rest => if m then none else scanMode true rest
  | m, Out.endMarker :: rest => if m then scanMode false rest else none
  | m, Out.errByte _ :: rest => if m then scanMode m rest else none
  | m, Out.outBlock _ :: rest => if m then none else scanMode m rest

/-! ## Position-level model of `stdout_putc`, with write failures

`flush_stdout_line` resets `stdout_line_pos` to 0 only if both its writes
succeed; on failure it returns 1 with the position unchanged, and
`stdout_putc` then returns 1 without storing the byte. The model below
tracks the position and the array indices stored into, with a boolean per
flush attempt saying whether its writes succeed. -/

/-- Outcome of one `flush_stdout_line` attempt on the position: `some 0` when
the writes succeed (`stdout_line_pos = 0`), `none` when a write fails
(`flush_stdout_line` returns 1 before the reset on line 257). -/
def tryFlush (ok : Bool) : Option Nat :=
  if ok then some 0 else none

/-- `stdout_putc` at the position level (src/hlerr.c lines 231-243), given the
success of its up-to-two flush attempts. Returns the new `stdout_line_pos`
and the list of indices of `stdout_line` stored into (`stdout_line[stdout_line_pos++] = c`,
line 237). On a failed full-buffer flush the function returns 1 without
storing. -/
def stdout_putc_pos (ok1 ok2 : Bool) (pos c : Nat) : Nat × List Nat :=
  match (if CAP ≤ pos then tryFlush ok1 else some pos) with
  | none => (pos, [])
  | some p =>
    if c = 10 then
      match tryFlush ok2 with
      | none => (p + 1, [p])
      | some q => (q, [p])
    else (p + 1, [p])

/-- A sequence of `stdout_putc` calls at the position level: each element of
the input list is (first-flush success, newline-flush success, byte). Returns
the final position and all stored indices. -/
def runPutc (pos : Nat) : List (Bool × Bool × Nat) → Nat × List Nat
  | [] => (pos, [])
  | (o1, o2, c) :: rest =>
    let p := stdout_putc_pos o1 o2 pos c
    let q := runPutc p.1 rest
    (q.1, p.2 ++ q.2)

/-! ## The parent's control flow (src/hlerr.c `parent`, lines 126-229)

Syscall results are explicit inputs. `errno` matters only as
EINTR-vs-anything-else. -/

/-- The errno distinction the code tests: `EINTR` vs any other error. -/
inductive Errno where
  | eintr : Errno
  | other : Errno
  deriving DecidableEq, Repr

/-- Result of one underlying `read(2)`/`write(2)` call: failure with an errno,
or success with a byte count. -/
inductive SysRes where
  | fail (e : Errno) : SysRes
  | ok (n : Nat) : SysRes
  deriving DecidableEq, Repr

/-- `read_nointr` (src/hlerr.c lines 289-296): repeat the `read` while it
returns -1 with `errno == EINTR`; return the first other result. The input
list is the sequence of results the kernel would give to successive calls;
`none` means the list was exhausted while still interrupted. -/
def read_nointr : List SysRes → Option SysRes
  | [] => none
  | SysRes.fail Errno.eintr :: rest => read_nointr rest
  | r :: _ => some r

/-- `write_nointr` (src/hlerr.c lines 298-305): same retry loop as
`read_nointr`, around `write`. -/
def write_nointr : List SysRes → Option SysRes
  | [] => none
  | SysRes.fail Errno.eintr :: rest => write_nointr rest
  | r :: _ => some r

/-- Result of the single-byte `read_nointr` on a ready channel, as the loop
body distinguishes it: -1 (checked), or a byte count of 0 (end of stream,
buffer byte left indeterminate) or 1 (one real byte). -/
inductive ReadRes where
  /-- `read_nointr` returned -1 (with a non-EINTR errno) -/
  | err : ReadRes
  /-- `read_nointr` returned 0: end of stream, `c` indeterminate -/
  | eof : ReadRes
  /-- `read_nointr` returned 1 having stored byte `c` -/
  | byte (c : Nat) : ReadRes
  deriving DecidableEq, Repr

/-- What the loop body does with one ready channel. -/
inductive ChanAct where
  /-- `goto reap_child` after `perror` -/
  | abort : ChanAct
  /-- call the renderer's putc with byte `c` and set the got flag -/
  | forward (c : Nat) : ChanAct
  deriving DecidableEq, Repr

/-- The per-ready-channel handling in the multiplexer loop (src/hlerr.c
lines 166-175 for stdout, 177-186 for stderr): declare `char c` (whose
initial, indeterminate content is the parameter `junk`), call `read_nointr`,
abort on -1, and otherwise call the putc — the return value 0 (zero bytes
read) is not tested, so the putc runs on the indeterminate `c`. -/
def handle_ready_channel (junk : Nat) : ReadRes → ChanAct
  | ReadRes.err => ChanAct.abort
  | ReadRes.eof => ChanAct.forward junk
  | ReadRes.byte c => ChanAct.forward c

/-- Result of one `poll` call as the loop inspects it: -1 with an errno, or
per-channel revents, reduced to the two bit tests the code makes —
`POLLERR | POLLNVAL` (e0, e1) and `POLLIN | POLLPRI` (r0, r1). -/
inductive PollRes where
  | perr (e : Errno) : PollRes
  | ok (e0 e1 r0 r1 : Bool) : PollRes
  deriving DecidableEq, Repr

/-- How one iteration of the multiplexer loop ends. -/
inductive IterOut where
  /-- `goto reap_child` (poll failure, stream error, or read failure) -/
  | toReap : IterOut
  /-- `break` out of the loop: neither channel produced anything -/
  | breakLoop : IterOut
  /-- next iteration of `for (;;)` -/
  | nextIter : IterOut
  deriving DecidableEq, Repr

/-- Does `read_nointr`'s result take the `rc == -1` branch? -/
def readAborts : ReadRes → Bool
  | ReadRes.err => true
  | _ => false

/-- Everything one loop iteration consumes from the environment: the poll
result, each channel's read result (used only if that channel is ready), and
whether the renderer's underlying writes fail while handling each byte. -/
structure Iter where
  poll : PollRes
  read0 : ReadRes
  read1 : ReadRes
  write0fails : Bool
  write1fails : Bool
  deriving DecidableEq, Repr

/-- One iteration of the multiplexer loop (src/hlerr.c lines 149-189):
poll failure or a `POLLERR | POLLNVAL` bit aborts to `reap_child`; a ready
channel whose read returns -1 aborts to `reap_child` (stdout checked first);
otherwise each ready channel sets its got flag — note `stdout_putc(c)` and
`stderr_putc(c)` are called with their return values discarded, so
`write0fails`/`write1fails` do not influence the outcome; the loop breaks
when neither flag is set. -/
def parent_iter (it : Iter) : IterOut :=
  match it.poll with
  | PollRes.perr _ => IterOut.toReap
  | PollRes.ok e0 e1 r0 r1 =>
    if e0 || e1 then IterOut.toReap
    else if r0 && readAborts it.read0 then IterOut.toReap
    else if r1 && readAborts it.read1 then IterOut.toReap
    else if !r0 && !r1 then IterOut.breakLoop
    else IterOut.nextIter

/-- The child's termination status as the reaper classifies it with
`WIFEXITED` / `WIFSIGNALED` (src/hlerr.c lines 202-219). -/
inductive WaitStatus where
  | exited (code : Nat) : WaitStatus
  | signaled (sig : Nat) : WaitStatus
  | unknown (raw : Nat) : WaitStatus
  deriving DecidableEq, Repr

/-- Result of the `wait(&status)` call (src/hlerr.c line 196): -1 with an
errno, or a status. -/
inductive WaitRes where
  | wfail (e : Errno) : WaitRes
  | wok (st : WaitStatus) : WaitRes
  deriving DecidableEq, Repr

/-- `get_signal_name` (src/hlerr.c lines 313-348): fixed lookup from the
signal number (Linux numbering) to its name; `none` for numbers outside the
table (C returns NULL). -/
def get_signal_name (sig : Nat) : Option String :=
  if sig = 6 then some "SIGABRT"
  else if sig = 14 then some "SIGALRM"
  else if sig = 7 then some "SIGBUS"
  else if sig = 17 then some "SIGCHLD"
  else if sig = 18 then some "SIGCONT"
  else if sig = 8 then some "SIGFPE"
  else if sig = 1 then some "SIGHUP"
  else if sig = 4 then some "SIGILL"
  else if sig = 2 then some "SIGINT"
  else if sig = 9 then some "SIGKILL"
  else if sig = 13 then some "SIGPIPE"
  else if sig = 3 then some "SIGQUIT"
  else if sig = 11 then some "SIGSEGV"
  else if sig = 19 then some "SIGSTOP"
  else if sig = 15 then some "SIGTERM"
  else if sig = 20 then some "SIGTSTP"
  else if sig = 21 then some "SIGTTIN"
  else if sig = 22 then some "SIGTTOU"
  else if sig = 10 then some "SIGUSR1"
  else if sig = 12 then some "SIGUSR2"
  else if sig = 29 then some "SIGPOLL"
  else if sig = 27 then some "SIGPROF"
  else if sig = 31 then some "SIGSYS"
  else if sig = 5 then some "SIGTRAP"
  else if sig = 23 then some "SIGURG"
  else if sig = 26 then some "SIGVTALRM"
  else if sig = 24 then some "SIGXCPU"
  else if sig = 25 then some "SIGXFSZ"
  else none

/-- The summary line printed for a normal exit:
`printf("\x1b[34mExited with status %d\x1b[m\n", WEXITSTATUS(status))`. -/
def exitedLine (code : Nat) : String :=
  "\x1b[34mExited with status " ++ toString code ++ "\x1b[m\n"

/-- The summary line printed for a signal termination, with or without a
resolved signal name (src/hlerr.c lines 207-212). -/
def signaledLine (sig : Nat) : String :=
  match get_signal_name sig with
  | some name => "\x1b[34mKilled by signal " ++ toString sig ++ " (" ++ name ++ ")\x1b[m\n"
  | none => "\x1b[34mKilled by signal " ++ toString sig ++ "\x1b[m\n"

/-- The classification and report of src/hlerr.c lines 202-219: the printed
summary line and the value `parent` returns (which `main` returns as the
process exit code). `unknown` prints to the controller's own stderr instead
(line 216) and returns `EXIT_FAILURE`. -/
def report : WaitStatus → String × Nat
  | WaitStatus.exited code => (exitedLine code, code)
  | WaitStatus.signaled sig => (signaledLine sig, EXIT_FAILURE)
  | WaitStatus.unknown raw =>
    ("\x1b[34mUnknown status " ++ toString raw ++ "\x1b[m\n", EXIT_FAILURE)

/-- What the `reap_child` tail of `parent` produces. -/
structure ReapOut where
  /-- the summary line printed (`none` when `wait` failed) -/
  summary : Option String
  /-- the value `parent` returns, which becomes the process exit code -/
  code : Nat
  /-- read-end descriptors the parent closes before returning -/
  closedReadEnds : List Nat
  deriving DecidableEq, Repr

/-- The `reap_child` tail of `parent` (src/hlerr.c lines 191-228), after the
`flush_stdout_line()` call: `wait(&status)`; on -1 (any errno, EINTR
included, line 197) `goto err0` returning `EXIT_FAILURE`; otherwise classify
and report, returning from inside each branch of the if/else chain. The
`close(stdout_pipes[0]); close(stderr_pipes[0]); return EXIT_SUCCESS;` code
at lines 221-224 sits after that chain, every branch of which returns, so no
path records a close: `closedReadEnds` is `[]` on every path. -/
def parent_reap (w : WaitRes) : ReapOut :=
  match w with
  | WaitRes.wfail _ => ⟨none, EXIT_FAILURE, []⟩
  | WaitRes.wok st =>
    let p := report st
    ⟨some p.1, p.2, []⟩

/-- The multiplexer loop followed by the reap: iterate until an iteration
ends with `toReap` or `breakLoop` — both fall into the `reap_child` label —
then reap. `none` means the supplied iteration inputs ran out with the loop
still going. -/
def parent_run (w : WaitRes) : List Iter → Option ReapOut
  | [] => none
  | it :: rest =>
    match parent_iter it with
    | IterOut.nextIter => parent_run w rest
    | _ => some (parent_reap w)

/-! ## Helper lemmas: the mode-scan invariant of the renderer -/

/-- Scanning distributes over append: if the first part scans cleanly to mode
`m'`, scanning the concatenation continues from `m'`. -/
lemma scanMode_append {m m' : Bool} {o1 : List Out} (o2 : List Out)
    (h : scanMode m o1 = some m') :
    scanMode m (o1 ++ o2) = scanMode m' o2 := by
  induction o1 generalizing m with
  | nil =>
    simp only [scanMode] at h
    cases h
    simp
  | cons hd tl ih =>
    cases hd <;> simp only [scanMode, List.cons_append] at h ⊢ <;>
      cases m <;> simp_all

/-- `set_stderr` leaves the buffer alone, sets the mode, and its emission
scans cleanly from the old mode to the new one. -/
lemma set_stderr_spec (st : RState) (b : Bool) :
    (set_stderr st b).1 = ⟨b, st.line⟩ ∧
    scanMode st.in_stderr (set_stderr st b).2 = some b := by
  unfold set_stderr
  by_cases hb : b = st.in_stderr
  · cases st
    simp_all [scanMode]
  · cases b <;> cases hst : st.in_stderr <;> simp_all [scanMode]

/-- `flush_stdout_line` ends in plain mode with an empty buffer, and its
emissions scan cleanly from the old mode to plain mode. -/
lemma flush_spec (st : RState) :
    (flush_stdout_line st).1 = ⟨false, []⟩ ∧
    scanMode st.in_stderr (flush_stdout_line st).2 = some false := by
  have h := set_stderr_spec st false
  unfold flush_stdout_line
  refine ⟨by simp [h.1], ?_⟩
  rw [scanMode_append _ h.2]
  simp [scanMode]

/-- `stdout_putc`'s emissions scan cleanly from the old mode to the new one. -/
lemma stdout_putc_scan (st : RState) (c : Nat) :
    scanMode st.in_stderr (stdout_putc st c).2 =
      some (stdout_putc st c).1.in_stderr := by
  unfold stdout_putc
  by_cases hful : CAP ≤ st.line.length <;> by_cases hc : c = 10
  · subst hc
    simp only [hful, ite_true, if_true]
    have h1 := flush_spec st
    rw [scanMode_append _ h1.2]
    have h2 := flush_spec { (flush_stdout_line st).1 with
      line := (flush_stdout_line st).1.line ++ [10] }
    simp only [h1.1] at h2 ⊢
    simpa using h2.2
  · simp only [hful, hc, ite_true, ite_false, if_true, if_false]
    have h1 := flush_spec st
    simpa [h1.1] using h1.2
  · subst hc
    simp only [hful, ite_true, ite_false, if_true, if_false]
    have h2 := flush_spec { st with line := st.line ++ [10] }
    rw [h2.1]
    simpa using h2.2
  · simp [hful, hc, scanMode]

/-- `stderr_putc` ends in highlighted mode and its emissions scan cleanly
from the old mode to highlighted mode. -/
lemma stderr_putc_scan (st : RState) (c : Nat) :
    (stderr_putc st c).1.in_stderr = true ∧
    scanMode st.in_stderr (stderr_putc st c).2 = some true := by
  have h := set_stderr_spec st true
  unfold stderr_putc
  refine ⟨by rw [h.1], ?_⟩
  rw [scanMode_append _ h.2]
  simp [scanMode]

/-- One dispatched byte keeps the scan invariant. -/
lemma step_scan (st : RState) (e : Ev) :
    scanMode st.in_stderr (step st e).2 = some (step st e).1.in_stderr := by
  cases e with
  | out c => exact stdout_putc_scan st c
  | err c =>
    have h := stderr_putc_scan st c
    simp only [step]
    rw [h.1]
    exact h.2

/-- The whole event sequence keeps the scan invariant. -/
lemma runEvents_scan (es : List Ev) : ∀ st : RState,
    scanMode st.in_stderr (runEvents st es).2 =
      some (runEvents st es).1.in_stderr := by
  induction es with
  | nil => intro st; simp [runEvents, scanMode]
  | cons e es ih =>
    intro st
    simp only [runEvents]
    rw [scanMode_append _ (step_scan st e)]
    exact ih _

/-- A completed run's output scans cleanly from plain mode back to plain
mode: every stderr byte lies strictly inside a begin/end-marker span, every
flushed stdout block lies outside all spans. -/
lemma run_scanMode (es : List Ev) : scanMode false (run es) = some false := by
  unfold run
  have h := runEvents_scan es initState
  have hinit : initState.in_stderr = false := rfl
  rw [hinit] at h
  rw [scanMode_append _ h]
  exact (flush_spec _).2

/-- Unfolding `countBegin` over a cons cell. -/
lemma countBegin_cons (o : Out) (tl : List Out) :
    countBegin (o :: tl) = (if o = Out.beginMarker then 1 else 0) + countBegin tl := by
  simp only [countBegin, List.filter]
  split <;> simp_all [Nat.add_comm]

/-- Unfolding `countEnd` over a cons cell. -/
lemma countEnd_cons (o : Out) (tl : List Out) :
    countEnd (o :: tl) = (if o = Out.endMarker then 1 else 0) + countEnd tl := by
  simp only [countEnd, List.filter]
  split <;> simp_all [Nat.add_comm]

/-- Counting consequence of a clean scan: the number of begin markers plus
the initial mode bit equals the number of end markers plus the final mode
bit. -/
lemma scan_count {o : List Out} : ∀ {m m' : Bool}, scanMode m o = some m' →
    countBegin o + (if m then 1 else 0) = countEnd o + (if m' then 1 else 0) := by
  induction o with
  | nil =>
    intro m m' h
    simp only [scanMode] at h
    cases h
    rfl
  | cons hd tl ih =>
    intro m m' h
    rw [countBegin_cons, countEnd_cons]
    cases hd with
    | beginMarker =>
      cases m with
      | true => simp [scanMode] at h
      | false =>
        have hh : scanMode true tl = some m' := by simpa [scanMode] using h
        have H := ih hh
        cases m' <;> simp_all <;> omega
    | endMarker =>
      cases m with
      | false => simp [scanMode] at h
      | true =>
        have hh : scanMode false tl = some m' := by simpa [scanMode] using h
        have H := ih hh
        cases m' <;> simp_all <;> omega
    | errByte c =>
      cases m with
      | false => simp [scanMode] at h
      | true =>
        have hh : scanMode true tl = some m' := by simpa [scanMode] using h
        have H := ih hh
        cases m' <;> simp_all
    | outBlock bs =>
      cases m with
      | true => simp [scanMode] at h
      | false =>
        have hh : scanMode false tl = some m' := by simpa [scanMode] using h
        have H := ih hh
        cases m' <;> simp_all

/-! ## Helper lemmas: line-buffer accumulation (no flush below capacity) -/

/-- Below capacity and off-newline, `stdout_putc` just appends the byte and
emits nothing. -/
lemma stdout_putc_small (st : RState) (c : Nat)
    (hlen : st.line.length < CAP) (hc : c ≠ 10) :
    stdout_putc st c = ({ st with line := st.line ++ [c] }, []) := by
  have h1 : ¬ CAP ≤ st.line.length := by omega
  simp [stdout_putc, h1, hc]

/-- Feeding `n` copies of a non-newline byte into a buffer with room for them
produces no emission at all and leaves the bytes accumulated in order. -/
lemma runEvents_replicate_out (c : Nat) (hc : c ≠ 10) :
    ∀ (n : Nat) (st : RState), st.line.length + n ≤ CAP →
    runEvents st (List.replicate n (Ev.out c)) =
      ({ st with line := st.line ++ List.replicate n c }, []) := by
  intro n
  induction n with
  | zero =>
    intro st _
    cases st
    simp [runEvents]
  | succ n ih =>
    intro st h
    rw [List.replicate_succ]
    simp only [runEvents, step]
    rw [stdout_putc_small st c (by omega) hc]
    rw [ih { st with line := st.line ++ [c] } (by simp; omega)]
    simp [List.append_assoc, List.replicate_succ]

/-- The stdout-origin bytes of an event sequence, in order: the byte
sequence the child's stdout carried into the multiplexer. -/
def outBytes (es : List Ev) : List Nat :=
  es.filterMap (fun e => match e with | Ev.out c => some c | Ev.err _ => none)

/-- `countFlush` adds over concatenation. -/
lemma countFlush_append (a b : List Out) :
    countFlush (a ++ b) = countFlush a + countFlush b := by
  simp [countFlush, List.filter_append]

/-- `set_stderr` never emits a line-buffer block. -/
lemma countFlush_set_stderr (st : RState) (b : Bool) :
    countFlush (set_stderr st b).2 = 0 := by
  by_cases h : b = st.in_stderr <;> cases b <;> simp [set_stderr, h, countFlush]

/-- Every `flush_stdout_line` call emits exactly one line-buffer block. -/
lemma countFlush_flush (st : RState) :
    countFlush (flush_stdout_line st).2 = 1 := by
  unfold flush_stdout_line
  rw [countFlush_append, countFlush_set_stderr]
  simp [countFlush]

/-- As long as the stdout-origin bytes seen so far fit into the remaining
buffer room and none of them is a newline, the renderer performs no
line-buffer flush at all — stderr bytes may be interleaved arbitrarily
(they never touch the line buffer) — and the stdout bytes accumulate in
order. -/
lemma runEvents_no_flush (es : List Ev) : ∀ st : RState,
    (∀ c ∈ outBytes es, c ≠ 10) →
    st.line.length + (outBytes es).length ≤ CAP →
    (runEvents st es).1.line = st.line ++ outBytes es ∧
    countFlush (runEvents st es).2 = 0 := by
  induction es with
  | nil =>
    intro st _ _
    simp [runEvents, outBytes, countFlush]
  | cons e es ih =>
    intro st h1 h2
    cases e with
    | out c =>
      have hob : outBytes (Ev.out c :: es) = c :: outBytes es := by
        simp [outBytes]
      rw [hob] at h1 h2 ⊢
      rw [List.length_cons] at h2
      have hc : c ≠ 10 := h1 c (by simp)
      have hlt : st.line.length < CAP := by omega
      simp only [runEvents, step]
      rw [stdout_putc_small st c hlt hc]
      have ihres := ih { st with line := st.line ++ [c] }
        (fun d hd => h1 d (by simp [hd]))
        (by simp only [List.length_append, List.length_singleton]; omega)
      refine ⟨?_, ?_⟩
      · rw [ihres.1]
        simp
      · rw [List.nil_append]
        exact ihres.2
    | err c =>
      have hob : outBytes (Ev.err c :: es) = outBytes es := by
        simp [outBytes]
      rw [hob] at h1 h2 ⊢
      simp only [runEvents, step, stderr_putc]
      have hset := set_stderr_spec st true
      rw [hset.1]
      have ihres := ih ⟨true, st.line⟩ h1 h2
      refine ⟨ihres.1, ?_⟩
      rw [countFlush_append, countFlush_append, countFlush_set_stderr]
      simpa [countFlush] using ihres.2

/-- `outBytes` of a pure-stdout replicate run. -/
lemma outBytes_replicate_out (n c : Nat) :
    outBytes (List.replicate n (Ev.out c)) = List.replicate n c := by
  induction n with
  | zero => rfl
  | succ n ih =>
    rw [List.replicate_succ, List.replicate_succ]
    simp [outBytes, ih]

/-! ## Helper lemmas: position bounds of `stdout_putc` -/

/-- One `stdout_putc` call never moves the position past the capacity, and
every index it stores into is strictly below the capacity. -/
lemma stdout_putc_pos_bound (ok1 ok2 : Bool) (pos c : Nat) (h : pos ≤ CAP) :
    (stdout_putc_pos ok1 ok2 pos c).1 ≤ CAP ∧
    ∀ i ∈ (stdout_putc_pos ok1 ok2 pos c).2, i < CAP := by
  have hCAP : CAP = 1024 := rfl
  unfold stdout_putc_pos tryFlush
  by_cases hful : CAP ≤ pos
  · rw [if_pos hful]
    have hpos : pos = CAP := by omega
    cases ok1
    · simp_all
    · by_cases hc : c = 10 <;> cases ok2 <;> simp_all
  · rw [if_neg hful]
    by_cases hc : c = 10 <;> cases ok2 <;> simp_all <;> omega

/-- A whole sequence of `stdout_putc` calls keeps the position at most the
capacity and stores only at indices strictly below the capacity. -/
lemma runPutc_bound (l : List (Bool × Bool × Nat)) :
    ∀ pos : Nat, pos ≤ CAP →
    (runPutc pos l).1 ≤ CAP ∧ ∀ i ∈ (runPutc pos l).2, i < CAP := by
  induction l with
  | nil =>
    intro pos h
    simpa [runPutc] using h
  | cons x rest ih =>
    intro pos h
    obtain ⟨o1, o2, c⟩ := x
    have h1 := stdout_putc_pos_bound o1 o2 pos c h
    have h2 := ih _ h1.1
    simp only [runPutc]
    refine ⟨h2.1, ?_⟩
    intro i hi
    rw [List.mem_append] at hi
    cases hi with
    | inl hl => exact h1.2 i hl
    | inr hr => exact h2.2 i hr

/-! ## Helper lemmas: EINTR retry loops -/

/-- `read_nointr` skips any finite run of EINTR-interrupted attempts and
returns the first other result. -/
lemma read_nointr_skips (k : Nat) (r : SysRes) (rest : List SysRes)
    (h : r ≠ SysRes.fail Errno.eintr) :
    read_nointr (List.replicate k (SysRes.fail Errno.eintr) ++ r :: rest) = some r := by
  induction k with
  | zero =>
    cases r with
    | fail e => cases e <;> simp_all [read_nointr]
    | ok n => simp [read_nointr]
  | succ k ih =>
    rw [List.replicate_succ]
    simpa [read_nointr] using ih

/-- `write_nointr` skips any finite run of EINTR-interrupted attempts and
returns the first other result. -/
lemma write_nointr_skips (k : Nat) (r : SysRes) (rest : List SysRes)
    (h : r ≠ SysRes.fail Errno.eintr) :
    write_nointr (List.replicate k (SysRes.fail Errno.eintr) ++ r :: rest) = some r := by
  induction k with
  | zero =>
    cases r with
    | fail e => cases e <;> simp_all [write_nointr]
    | ok n => simp [write_nointr]
  | succ k ih =>
    rw [List.replicate_succ]
    simpa [write_nointr] using ih

/-! ## The claims -/

/-- C1: the claim says a zero-byte read (end-of-stream) on a ready channel is
distinguished from a one-byte read and never produces a rendered byte. The
loop body (src/hlerr.c lines 166-175, 177-186) checks only `rc == -1` and
then calls the putc unconditionally, so at the failing input — a ready
channel whose read yields zero bytes — the indeterminate stack byte `junk`
IS forwarded to the renderer, exactly as it would be for a one-byte read. -/
theorem c1_eof_read_forwards_byte (junk : Nat) :
    handle_ready_channel junk ReadRes.eof = ChanAct.forward junk := rfl

/-- C2 counterexample: feeding exactly `CAP` = 1024 non-newline bytes (byte
value 65) through `stdout_putc` from the initial state produces no flush at
all while those bytes are handled — not one flush at the capacity boundary
as claimed. The capacity check runs before the append, so after the 1024th
byte the buffer is exactly full and still unflushed. -/
theorem c2_counterexample :
    countFlush (runEvents initState (List.replicate CAP (Ev.out 65))).2 = 0 ∧
    (runEvents initState (List.replicate CAP (Ev.out 65))).2 = [] ∧
    CAP = 1024 := by
  have h := runEvents_replicate_out 65 (by decide) CAP initState (by decide)
  rw [h]
  exact ⟨rfl, rfl, rfl⟩

/-- C2 (amended): in every run whose stdout carries exactly `CAP` = 1024
bytes none of which is a newline — arbitrary byte values, arbitrary
interleavings with stderr traffic — no line-buffer flush occurs while the
bytes are handled (the buffer accumulates all 1024 of them, filling to
exactly capacity), and the single flush of such a run is the final
end-of-run flush — a flush at the capacity boundary would happen only at
the start of handling a 1025th stdout byte. The whole run flushes exactly
once, but not when the 1024th byte is handled. -/
theorem c2_capacity_boundary_flush (es : List Ev)
    (hnl : ∀ c ∈ outBytes es, c ≠ 10)
    (hlen : (outBytes es).length = CAP) :
    countFlush (runEvents initState es).2 = 0 ∧
    (runEvents initState es).1.line = outBytes es ∧
    (runEvents initState es).1.line.length = CAP ∧
    countFlush (run es) = 1 := by
  have H := runEvents_no_flush es initState hnl
    (by simp only [initState, List.length_nil, Nat.zero_add]; omega)
  have hline : (runEvents initState es).1.line = outBytes es := by
    rw [H.1]
    simp [initState]
  refine ⟨H.2, hline, by rw [hline, hlen], ?_⟩
  unfold run
  rw [countFlush_append, H.2, countFlush_flush]

/-- Witness for C2 (amended) at a concrete run: 1024 stdout bytes of
value 65. -/
theorem c2_capacity_boundary_flush_witness :
    ((∀ c ∈ outBytes (List.replicate CAP (Ev.out 65)), c ≠ 10) ∧
     (outBytes (List.replicate CAP (Ev.out 65))).length = CAP) ∧
    (countFlush (runEvents initState (List.replicate CAP (Ev.out 65))).2 = 0 ∧
     (runEvents initState (List.replicate CAP (Ev.out 65))).1.line
       = outBytes (List.replicate CAP (Ev.out 65)) ∧
     (runEvents initState (List.replicate CAP (Ev.out 65))).1.line.length = CAP ∧
     countFlush (run (List.replicate CAP (Ev.out 65))) = 1) := by
  have h1 : ∀ c ∈ outBytes (List.replicate CAP (Ev.out 65)), c ≠ 10 := by
    rw [outBytes_replicate_out]
    intro c hc
    have := List.eq_of_mem_replicate hc
    omega
  have h2 : (outBytes (List.replicate CAP (Ev.out 65))).length = CAP := by
    rw [outBytes_replicate_out, List.length_replicate]
  exact ⟨⟨h1, h2⟩, c2_capacity_boundary_flush (List.replicate CAP (Ev.out 65)) h1 h2⟩

/-- C3: in every completed run — the final `flush_stdout_line` after
multiplexing included, which performs the mode-reset-then-write sequence
even on an empty buffer — the number of highlight-begin markers written
equals the number of highlight-end markers written. -/
theorem c3_markers_balanced (es : List Ev) :
    countBegin (run es) = countEnd (run es) := by
  have h := scan_count (run_scanMode es)
  simpa using h

/-- C4 counterexample: an EINTR interruption of the readiness wait is NOT
retried — src/hlerr.c lines 151-155 treat any -1 from `poll`, EINTR
included, as a failure (`perror`, then `goto reap_child`), aborting the
multiplexing loop; likewise an EINTR from `wait` (line 196-200) takes the
fatal `err0` path and the run returns `EXIT_FAILURE`. -/
theorem c4_counterexample :
    parent_iter ⟨PollRes.perr Errno.eintr, ReadRes.byte 0, ReadRes.byte 0, false, false⟩
      = IterOut.toReap ∧
    IterOut.toReap ≠ IterOut.nextIter ∧
    parent_reap (WaitRes.wfail Errno.eintr) = ⟨none, EXIT_FAILURE, []⟩ :=
  ⟨rfl, by decide, rfl⟩

/-- C4 (amended): the per-byte reads and the writes are retried
transparently on EINTR — `read_nointr` and `write_nointr` skip any finite
run of interruptions and return the first other result — but the readiness
wait and the final wait for the child are not retried: a -1 from `poll`,
whatever the errno, aborts the loop to `reap_child`, and a -1 from `wait`
makes the run return `EXIT_FAILURE`. -/
theorem c4_eintr_retry (k : Nat) (r : SysRes) (rest : List SysRes)
    (h : r ≠ SysRes.fail Errno.eintr)
    (e : Errno) (rd0 rd1 : ReadRes) (b0 b1 : Bool) :
    read_nointr (List.replicate k (SysRes.fail Errno.eintr) ++ r :: rest) = some r ∧
    write_nointr (List.replicate k (SysRes.fail Errno.eintr) ++ r :: rest) = some r ∧
    parent_iter ⟨PollRes.perr e, rd0, rd1, b0, b1⟩ = IterOut.toReap ∧
    parent_reap (WaitRes.wfail e) = ⟨none, EXIT_FAILURE, []⟩ :=
  ⟨read_nointr_skips k r rest h, write_nointr_skips k r rest h, rfl, rfl⟩

/-- Witness for C4 (amended): two EINTR interruptions followed by a
successful one-byte transfer. -/
theorem c4_eintr_retry_witness :
    SysRes.ok 1 ≠ SysRes.fail Errno.eintr ∧
    (read_nointr (List.replicate 2 (SysRes.fail Errno.eintr) ++ SysRes.ok 1 :: [])
       = some (SysRes.ok 1) ∧
     write_nointr (List.replicate 2 (SysRes.fail Errno.eintr) ++ SysRes.ok 1 :: [])
       = some (SysRes.ok 1) ∧
     parent_iter ⟨PollRes.perr Errno.eintr, ReadRes.byte 0, ReadRes.byte 0, false, false⟩
       = IterOut.toReap ∧
     parent_reap (WaitRes.wfail Errno.eintr) = ⟨none, EXIT_FAILURE, []⟩) :=
  ⟨by decide,
   c4_eintr_retry 2 (SysRes.ok 1) [] (by decide) Errno.eintr
     (ReadRes.byte 0) (ReadRes.byte 0) false false⟩

/-- C5 counterexample: an iteration in which the stdout channel is ready,
its read yields byte 65, and the renderer's underlying write fails
(`write0fails = true`) continues to the next iteration — the loop does NOT
abort: the failure return of `stdout_putc` at src/hlerr.c line 173 is
discarded. -/
theorem c5_counterexample :
    parent_iter ⟨PollRes.ok false false true false, ReadRes.byte 65, ReadRes.byte 0, true, true⟩
      = IterOut.nextIter ∧
    IterOut.nextIter ≠ IterOut.toReap :=
  ⟨rfl, by decide⟩

/-- C5 (amended): a failed write while rendering a byte does not abort the
multiplexer loop: the iteration outcome is independent of the write-failure
flags, an iteration that forwarded a byte proceeds even when its write
failed, and the child is reaped and reported whenever the loop ends — both
`toReap` and `breakLoop` fall into `reap_child`. -/
theorem c5_write_failure_ignored (p : PollRes) (r0 r1 : ReadRes)
    (b0 b1 b0' b1' : Bool) (c : Nat) (w : WaitRes) (rest : List Iter) :
    parent_iter ⟨p, r0, r1, b0, b1⟩ = parent_iter ⟨p, r0, r1, b0', b1'⟩ ∧
    parent_iter ⟨PollRes.ok false false true false, ReadRes.byte c, r1, true, b1⟩
      = IterOut.nextIter ∧
    parent_run w
      (⟨PollRes.ok false false true false, ReadRes.byte c, r1, true, b1⟩ ::
       ⟨PollRes.ok false false false false, r0, r1, b0, b1⟩ :: rest)
      = some (parent_reap w) :=
  ⟨rfl, rfl, rfl⟩

/-- C6 counterexample: the rendered output of a run is not emitted on one
single sink: a run that renders one stderr byte and one stdout byte writes
its markers and the stderr byte to descriptor 2 (`STDERR_FILENO`) but its
flushed stdout block to descriptor 1 (`STDOUT_FILENO`) — two distinct
descriptors. -/
theorem c6_counterexample :
    (run [Ev.err 65, Ev.out 66]).map Out.fd = [2, 2, 2, 1] ∧
    STDERR_FILENO ∈ (run [Ev.err 65, Ev.out 66]).map Out.fd ∧
    STDOUT_FILENO ∈ (run [Ev.err 65, Ev.out 66]).map Out.fd ∧
    STDERR_FILENO ≠ STDOUT_FILENO := by decide

/-- C6 (amended): the rendered output of a run is a single ordered sequence
of writes, but it goes to two descriptors (stdout for line-buffer blocks,
stderr for markers and stderr bytes) and so forms one combined byte stream
only when both descriptors refer to the same sink. On that ordered sequence
the claimed wrapping holds: the mode scan from plain mode succeeds and
returns to plain mode — every stderr-origin byte lies inside a
begin/end-marker span and every stdout-origin block lies outside all
spans. -/
theorem c6_wrapped_spans (es : List Ev) :
    scanMode false (run es) = some false :=
  run_scanMode es

/-- C7: a child that exits normally with code `n` (0-255) yields the summary
line `Exited with status n` (inside the summary's own blue/reset wrapper)
and `parent`'s return value — which `main` returns as the controller's
process exit code — equals `n`. -/
theorem c7_exit_status_reported (n : Nat) (_h : n ≤ 255) :
    report (WaitStatus.exited n) = (exitedLine n, n) ∧
    exitedLine n = "\x1b[34m" ++ ("Exited with status " ++ toString n) ++ "\x1b[m\n" ∧
    parent_reap (WaitRes.wok (WaitStatus.exited n)) = ⟨some (exitedLine n), n, []⟩ := by
  refine ⟨rfl, ?_, rfl⟩
  unfold exitedLine
  have hlit : ("\x1b[34m" ++ "Exited with status " : String)
      = "\x1b[34mExited with status " := rfl
  rw [← hlit]
  rw [String.append_assoc "\x1b[34m" "Exited with status " (toString n)]

/-- Witness for C7 at the spec's scenario: exit code 3. -/
theorem c7_exit_status_reported_witness :
    (3 : Nat) ≤ 255 ∧
    (report (WaitStatus.exited 3) = (exitedLine 3, 3) ∧
     exitedLine 3 = "\x1b[34m" ++ ("Exited with status " ++ toString 3) ++ "\x1b[m\n" ∧
     parent_reap (WaitRes.wok (WaitStatus.exited 3)) = ⟨some (exitedLine 3), 3, []⟩) :=
  ⟨by decide, c7_exit_status_reported 3 (by decide)⟩

/-- C8: the claim says each of the two read-end descriptors is closed
exactly once by the controller before it exits. In the code the two `close`
calls (src/hlerr.c lines 221-222) sit after an if/else-if/else chain every
branch of which returns (lines 204, 213, 218), so no execution path reaches
them: on every wait outcome the list of read ends the parent closes is
empty — zero closes, not exactly one. The dead `close` calls show the
closing was intended and the placement a slip. -/
theorem c8_read_ends_never_closed (w : WaitRes) :
    (parent_reap w).closedReadEnds = [] := by
  cases w <;> rfl

/-- C9: across any sequence of `stdout_putc` calls starting from any
position within bounds (position 0 included), with arbitrary bytes and
arbitrary flush-write successes, every store into `stdout_line` happens at
an index strictly below the 1024-byte capacity and the position never
exceeds the capacity: the full buffer is flushed (resetting the position to
0) before the new byte is appended. -/
theorem c9_no_out_of_bounds_store (l : List (Bool × Bool × Nat)) (pos : Nat)
    (h : pos ≤ CAP) :
    (runPutc pos l).1 ≤ CAP ∧ ∀ i ∈ (runPutc pos l).2, i < CAP :=
  runPutc_bound l pos h

/-- Witness for C9: one call storing byte 65 from position 0. -/
theorem c9_no_out_of_bounds_store_witness :
    (0 : Nat) ≤ CAP ∧
    ((runPutc 0 [(true, true, 65)]).1 ≤ CAP ∧
     ∀ i ∈ (runPutc 0 [(true, true, 65)]).2, i < CAP) :=
  ⟨by decide, c9_no_out_of_bounds_store [(true, true, 65)] 0 (by decide)⟩

/-- C10: each highlight-marker emission writes the marker array in full,
terminating NUL included, because `sizeof` of the array is passed as the
write length: the begin-marker write is exactly the 5 escape-sequence bytes
ESC `[` `3` `1` `m` followed by a 0 byte (6 bytes in all), the end-marker
write is ESC `[` `m` followed by a 0 byte (4 bytes in all), and
`set_stderr`'s two mode transitions emit exactly these markers. -/
theorem c10_marker_writes_include_nul :
    STDERR_BEGIN_MARKER = [27, 91, 51, 49, 109, 0] ∧
    STDERR_BEGIN_MARKER.length = 6 ∧
    STDERR_END_MARKER = [27, 91, 109, 0] ∧
    STDERR_END_MARKER.length = 4 ∧
    Out.bytes Out.beginMarker = STDERR_BEGIN_MARKER_text ++ [0] ∧
    Out.bytes Out.endMarker = STDERR_END_MARKER_text ++ [0] ∧
    (set_stderr initState true).2 = [Out.beginMarker] ∧
    (set_stderr ⟨true, []⟩ false).2 = [Out.endMarker] := by decide

end Hlerr
